import Mathlib

/-!
Verification of the c4group codec (`c4group.py`): a shallow embedding of the
format engine — header obfuscation, entry-record (de)serialization, content
positions, the lazy content accessor, the compression envelope and filename
decoding — together with proofs and refutations of its specified properties.

Bytes are modelled as `Nat` (values `< 256` where produced by the code);
byte strings as `List Nat`. Machine-integer packing (`struct` `<i`/`<I`)
is modelled as little-endian with an explicit `% 2^32`.
-/

set_option maxRecDepth 10000

/-- Error kinds raised by the code: `C4GroupError` messages are distinguished
by constructor. -/
inductive CGErr where
  | invalidGroupHeader
  | invalidContentPosition
  | structError
  deriving DecidableEq, Repr

/-- The swap pass of `C4GroupDirectory.decryptHeader` (lines 128-131):
`while (i+2) < len: swap header[i], header[i+2]; i += 3`, i.e. the first and
third byte of each complete 3-byte chunk are exchanged, a trailing chunk of
fewer than 3 bytes is left alone. -/
def swapPass : List Nat → List Nat
  | a :: b :: c :: rest => c :: b :: a :: swapPass rest
  | l => l

/-- `C4GroupDirectory.decryptHeader` (lines 122-136): reject inputs whose
length is not 204, else run the swap pass and XOR every byte with `0xED`. -/
def decryptHeader (header : List Nat) : Except CGErr (List Nat) :=
  if header.length ≠ 204 then .error .invalidGroupHeader
  else .ok ((swapPass header).map (fun b => b ^^^ 0xED))

theorem swapPass_swapPass (l : List Nat) : swapPass (swapPass l) = l := by
  induction l using swapPass.induct with
  | case1 a b c rest ih => simp [swapPass, ih]
  | case2 l h => cases l with
    | nil => rfl
    | cons a t => cases t with
      | nil => rfl
      | cons b t2 => cases t2 with
        | nil => rfl
        | cons c r => exact absurd rfl (h a b c r)

theorem swapPass_map (f : Nat → Nat) (l : List Nat) :
    swapPass (l.map f) = (swapPass l).map f := by
  induction l using swapPass.induct with
  | case1 a b c rest ih => simp [swapPass, ih]
  | case2 l h => cases l with
    | nil => rfl
    | cons a t => cases t with
      | nil => rfl
      | cons b t2 => cases t2 with
        | nil => rfl
        | cons c r => exact absurd rfl (h a b c r)

theorem swapPass_length (l : List Nat) : (swapPass l).length = l.length := by
  induction l using swapPass.induct with
  | case1 a b c rest ih => simp [swapPass, ih]
  | case2 l h => cases l with
    | nil => rfl
    | cons a t => cases t with
      | nil => rfl
      | cons b t2 => cases t2 with
        | nil => rfl
        | cons c r => exact absurd rfl (h a b c r)

theorem xor_xor_cancel (b : Nat) : (b ^^^ 0xED) ^^^ 0xED = b := by
  rw [Nat.xor_assoc, Nat.xor_self, Nat.xor_zero]

/-- C3: The header obfuscation routine is an involution: for every 204-byte
input `h`, applying `decryptHeader` twice returns `h` (the swap pass is a
sequence of disjoint transpositions, hence self-inverse, and the
XOR-with-0xED pass is self-inverse). -/
theorem decryptHeader_involution (h : List Nat) (hlen : h.length = 204) :
    (decryptHeader h).bind decryptHeader = .ok h := by
  have hlen2 : ((swapPass h).map (fun b => b ^^^ 0xED)).length = 204 := by
    simp [swapPass_length, hlen]
  rw [decryptHeader, if_neg (by simp [hlen])]
  show decryptHeader ((swapPass h).map (fun b => b ^^^ 0xED)) = .ok h
  rw [decryptHeader, if_neg (by simp [hlen2])]
  rw [swapPass_map, swapPass_swapPass, List.map_map]
  have hc : ((fun b => b ^^^ 0xED) ∘ fun b => b ^^^ 0xED) = (id : Nat → Nat) := by
    funext b; exact xor_xor_cancel b
  rw [hc, List.map_id]

/-- Witness for C3 at a concrete 204-byte header. -/
theorem decryptHeader_involution_witness :
    (decryptHeader (List.replicate 204 7)).bind decryptHeader
      = .ok (List.replicate 204 7) :=
  decryptHeader_involution (List.replicate 204 7) (by simp)

/-- C4: `decryptHeader` fails (with the invalid-group-header `C4GroupError`)
for every input whose length is not 204, and never fails for inputs of
exactly 204 bytes. -/
theorem decryptHeader_length_check (h : List Nat) :
    (h.length ≠ 204 → decryptHeader h = .error .invalidGroupHeader)
    ∧ (h.length = 204 → ∃ r, decryptHeader h = .ok r) := by
  constructor
  · intro hne; simp [decryptHeader, hne]
  · intro heq
    exact ⟨(swapPass h).map (fun b => b ^^^ 0xED), by simp [decryptHeader, heq]⟩

/-- Witness for C4: a 3-byte input is rejected; a 204-byte input succeeds. -/
theorem decryptHeader_length_check_witness :
    decryptHeader [1, 2, 3] = .error .invalidGroupHeader
    ∧ ∃ r, decryptHeader (List.replicate 204 0) = .ok r :=
  ⟨(decryptHeader_length_check [1, 2, 3]).1 (by decide),
   (decryptHeader_length_check (List.replicate 204 0)).2 (by simp)⟩

/-! ## Entry model: parent chain and content position

`C4GroupFile` has a `parent` attribute defaulting to `None` (line 27) and a
`content_pos` property (lines 83-85):
`(parent.content_pos + 204 + 316 * parent.count + offset_to_file) if parent
else 0`. The parent chain is embedded as an inductive: `root` models an entry
whose `parent` is `None`, `child` one whose `parent` is the given entry. Each
entry carries the fields the accessor layer reads: `size`, `offset_to_file`
and (meaningful for directories) `count`. -/

inductive PEntry where
  | root (size offset_to_file count : Nat)
  | child (size offset_to_file count : Nat) (parent : PEntry)
  deriving DecidableEq, Repr

def PEntry.size : PEntry → Nat
  | .root s _ _ => s
  | .child s _ _ _ => s

def PEntry.offset_to_file : PEntry → Nat
  | .root _ o _ => o
  | .child _ o _ _ => o

def PEntry.count : PEntry → Nat
  | .root _ _ c => c
  | .child _ _ c _ => c

/-- `C4GroupFile.content_pos` (line 85). -/
def PEntry.content_pos : PEntry → Nat
  | .root _ _ _ => 0
  | .child _ off _ p => p.content_pos + 204 + 316 * p.count + off

/-- The Python property always returns an `int`; the getter's `== None` test
(line 65) observes it through this always-`some` option. -/
def contentPosOpt (m : PEntry) : Option Nat := some m.content_pos

/-! ## Stream and the lazy content accessor -/

/-- A seekable byte stream: the decompressed archive body plus a cursor. -/
structure ByteStream where
  data : List Nat
  pos : Nat
  deriving DecidableEq, Repr

def ByteStream.seek (s : ByteStream) (p : Nat) : ByteStream := { s with pos := p }

/-- `fileobj.read n`: returns at most `n` bytes from the cursor and advances
the cursor by the number of bytes actually read. -/
def ByteStream.read (s : ByteStream) (n : Nat) : List Nat × ByteStream :=
  let bs := (s.data.drop s.pos).take n
  (bs, { s with pos := s.pos + bs.length })

/-- The private `__content` field together with the metadata the getter uses. -/
structure FileState where
  meta : PEntry
  mcontent : Option (List Nat)
  deriving DecidableEq, Repr

/-- Python truthiness of `self.__content` (line 62): `None` and `b""` are
falsy, non-empty bytes truthy. -/
def truthyBytes : Option (List Nat) → Bool
  | some (_ :: _) => true
  | _ => false

/-- The `content` property getter of `C4GroupFile` (lines 60-72): return the
materialized bytes if truthy; fail if the content position is `None`; else
remember the cursor, seek to the content position, read `size` bytes
(`struct.unpack` raises if fewer arrive — before the cursor is restored),
restore the cursor and return the bytes. -/
def contentGet (f : FileState) (s : ByteStream) : Except CGErr (List Nat) × ByteStream :=
  if truthyBytes f.mcontent then (.ok (f.mcontent.getD []), s)
  else
    match contentPosOpt f.meta with
    | none => (.error .invalidContentPosition, s)
    | some cp =>
      let pos := s.pos
      let s1 := s.seek cp
      let (cnt, s2) := s1.read f.meta.size
      if cnt.length = f.meta.size then (.ok cnt, s2.seek pos)
      else (.error .structError, s2)

/-- The `content` property setter (lines 74-77): a `bytes` value (modelled:
any byte list, including the empty one) is stored into `__content`. -/
def contentSet (f : FileState) (v : List Nat) : FileState :=
  { f with mcontent := some v }

/-- The `parent` attribute observed as an option (`None` for `root`). -/
def PEntry.parent : PEntry → Option PEntry
  | .root _ _ _ => none
  | .child _ _ _ p => some p

/-- C7: an entry with an owning parent has absolute content position
parent's content position + 204 + 316 × parent's entry count + its own
`offset_to_file`; a parentless entry has content position 0. -/
theorem content_pos_invariant (e : PEntry) :
    (∀ p, e.parent = some p →
        e.content_pos = p.content_pos + 204 + 316 * p.count + e.offset_to_file)
    ∧ (e.parent = none → e.content_pos = 0) := by
  cases e with
  | root s o c =>
    exact ⟨fun p hp => by simp [PEntry.parent] at hp, fun _ => rfl⟩
  | child s o c q =>
    constructor
    · intro p hp
      simp only [PEntry.parent, Option.some.injEq] at hp
      subst hp
      rfl
    · intro hn
      simp [PEntry.parent] at hn

/-- Witness for C7 at a concrete two-level parent chain. -/
theorem content_pos_invariant_witness :
    (PEntry.child 1 10 2 (PEntry.root 0 0 3)).content_pos
      = (PEntry.root 0 0 3).content_pos + 204
          + 316 * (PEntry.root 0 0 3).count
          + (PEntry.child 1 10 2 (PEntry.root 0 0 3)).offset_to_file
    ∧ (PEntry.root 0 0 3).content_pos = 0 :=
  ⟨(content_pos_invariant (PEntry.child 1 10 2 (PEntry.root 0 0 3))).1
      (PEntry.root 0 0 3) rfl,
   (content_pos_invariant (PEntry.root 0 0 3)).2 rfl⟩

/-- C5 counterexample: an entry whose content was explicitly set to the empty
byte string does not get it back from the getter — the lazy path serves the
stream bytes instead. -/
theorem contentGet_materialized_counterexample :
    contentGet ⟨PEntry.root 1 0 0, some []⟩ ⟨[9], 0⟩
      = (.ok [9], (⟨[9], 0⟩ : ByteStream))
    ∧ ([9] : List Nat) ≠ [] := by
  constructor
  · rfl
  · decide

/-- C5 (amended): the getter returns the materialized bytes when they were
set to a non-empty value; the invalid-content-position error is unreachable
(a position, 0 for parentless entries, is always computed); otherwise, when
the stream holds `size` bytes at the content position, it returns exactly
those bytes and leaves the stream as it was. -/
theorem contentGet_spec_amended (f : FileState) (s : ByteStream) :
    (∀ c, f.mcontent = some c → c ≠ [] → contentGet f s = (.ok c, s))
    ∧ (contentGet f s).1 ≠ .error .invalidContentPosition
    ∧ (truthyBytes f.mcontent = false →
        f.meta.content_pos + f.meta.size ≤ s.data.length →
        contentGet f s
          = (.ok ((s.data.drop f.meta.content_pos).take f.meta.size), s)) := by
  refine ⟨?_, ?_, ?_⟩
  · intro c hc hne
    have ht : truthyBytes (some c) = true := by
      cases c with
      | nil => exact absurd rfl hne
      | cons a t => rfl
    simp only [contentGet, hc, ht, if_true, Option.getD_some]
  · by_cases ht : truthyBytes f.mcontent
    · simp [contentGet, ht]
    · simp only [contentGet, ht, Bool.false_eq_true, if_false, contentPosOpt]
      split <;> simp
  · intro ht hle
    have hlen : ((s.data.drop f.meta.content_pos).take f.meta.size).length
        = f.meta.size := by
      simp only [List.length_take, List.length_drop]
      omega
    simp only [contentGet, ht, Bool.false_eq_true, if_false, contentPosOpt,
      ByteStream.seek, ByteStream.read, hlen, if_true]

/-- Witness for C5's amended theorem at concrete inputs. -/
theorem contentGet_spec_amended_witness :
    contentGet ⟨PEntry.root 0 0 0, some [5]⟩ ⟨[], 0⟩
      = (.ok [5], (⟨[], 0⟩ : ByteStream))
    ∧ contentGet ⟨PEntry.root 2 0 0, none⟩ ⟨[3, 4], 1⟩
      = (.ok [3, 4], (⟨[3, 4], 1⟩ : ByteStream)) :=
  ⟨(contentGet_spec_amended ⟨PEntry.root 0 0 0, some [5]⟩ ⟨[], 0⟩).1
      [5] rfl (by decide),
   (contentGet_spec_amended ⟨PEntry.root 2 0 0, none⟩ ⟨[3, 4], 1⟩).2.2
      rfl (by decide)⟩

/-- C6 counterexample: when the stream holds fewer than `size` bytes the
unpack error fires before the cursor restore, so a lazy content read can
leave the cursor displaced (here from 1 to 3). -/
theorem contentGet_cursor_counterexample :
    ((contentGet ⟨PEntry.root 5 0 0, none⟩ ⟨[1, 2, 3], 1⟩).2).pos = 3
    ∧ (⟨[1, 2, 3], 1⟩ : ByteStream).pos = 1
    ∧ (3 : Nat) ≠ 1 := by
  refine ⟨rfl, rfl, by decide⟩

/-- C6 (amended): whenever the content read returns successfully, the
stream's cursor is back at the position it had before the call. -/
theorem contentGet_cursor_restore (f : FileState) (s : ByteStream)
    (r : List Nat) (s' : ByteStream) (h : contentGet f s = (.ok r, s')) :
    s'.pos = s.pos := by
  by_cases ht : truthyBytes f.mcontent
  · simp only [contentGet, ht, if_true] at h
    have := congrArg Prod.snd h
    simp at this
    rw [← this]
  · simp only [contentGet, ht, Bool.false_eq_true, if_false, contentPosOpt,
      ByteStream.seek, ByteStream.read] at h
    split at h
    · have := congrArg Prod.snd h
      simp at this
      rw [← this]
    · exact absurd (congrArg Prod.fst h) (by simp)

/-- Witness for C6's amended theorem at a concrete successful read. -/
theorem contentGet_cursor_restore_witness :
    ((contentGet ⟨PEntry.root 1 0 0, none⟩ ⟨[9], 5⟩).2).pos = 5 :=
  contentGet_cursor_restore ⟨PEntry.root 1 0 0, none⟩ ⟨[9], 5⟩ [9]
    ((contentGet ⟨PEntry.root 1 0 0, none⟩ ⟨[9], 5⟩).2) rfl

/-- C10: explicitly setting an entry's content to the empty byte string is
invisible to the getter — it behaves exactly as if no content were set,
falling through to the lazy stream-read path. -/
theorem contentGet_empty_override (m : PEntry) (old : Option (List Nat))
    (s : ByteStream) :
    contentGet (contentSet ⟨m, old⟩ []) s = contentGet ⟨m, none⟩ s := rfl

/-! ## Envelope layer

Load side (`C4GroupDirectory.__init__`, lines 100-104): the whole file is
read, its first two bytes are overwritten with `0x1F 0x8B`
(`temp[:2] = b"\x1f\x8b"`, a two-byte slice assignment) and the buffer is
handed to the external decompressor (`gzip.GzipFile`). Save side
(`saveToFile`, lines 219-226): the serialized body is handed to the external
compressor (`gzip.compress`) and the first two bytes of the result are
overwritten with `0x1E 0x8C` before the bytes go to disk. The compressor and
decompressor are external collaborators, taken as parameters. -/

/-- `temp[:2] = b"\x1f\x8b"` (line 103). -/
def patchedLoadBuffer (raw : List Nat) : List Nat :=
  0x1f :: 0x8b :: raw.drop 2

/-- Lines 100-104: patch the magic, then hand the buffer to the
decompressor. -/
def envelopeLoad (decompress : List Nat → List Nat) (raw : List Nat) :
    List Nat :=
  decompress (patchedLoadBuffer raw)

/-- Lines 221-224: compress the serialized body, then overwrite bytes 0 and 1
with the disk magic (`temp[0] = 0x1e; temp[1] = 0x8c`). -/
def envelopeSave (compress : List Nat → List Nat) (body : List Nat) :
    List Nat :=
  ((compress body).set 0 0x1e).set 1 0x8c

/-- C8: on load the buffer handed to the decompressor is the input file with
its first two bytes forced to `0x1F 0x8B` and the rest untouched; on save the
written bytes are the compressor's output with its first two bytes overwritten
by `0x1E 0x8C` and the rest untouched. -/
theorem envelope_magic_patch (decompress compress : List Nat → List Nat)
    (raw body : List Nat) :
    envelopeLoad decompress raw = decompress (patchedLoadBuffer raw)
    ∧ (patchedLoadBuffer raw).take 2 = [0x1f, 0x8b]
    ∧ (patchedLoadBuffer raw).drop 2 = raw.drop 2
    ∧ (2 ≤ (compress body).length →
        (envelopeSave compress body).take 2 = [0x1e, 0x8c])
    ∧ (envelopeSave compress body).drop 2 = (compress body).drop 2 := by
  refine ⟨rfl, rfl, rfl, ?_, ?_⟩
  · intro hlen
    match hcb : compress body with
    | [] => rw [hcb] at hlen; simp at hlen
    | [x] => rw [hcb] at hlen; simp at hlen
    | x :: y :: t => simp [envelopeSave, hcb]
  · match hcb : compress body with
    | [] => simp [envelopeSave, hcb]
    | [x] => simp [envelopeSave, hcb]
    | x :: y :: t => simp [envelopeSave, hcb]

/-- Witness for C8 with a concrete compressor whose output has length ≥ 2. -/
theorem envelope_magic_patch_witness :
    (envelopeSave (fun l => 7 :: 8 :: 9 :: l) [1]).take 2 = [0x1e, 0x8c] :=
  (envelope_magic_patch id (fun l => 7 :: 8 :: 9 :: l) [] [1]).2.2.2.1
    (by decide)

/-! ## Filename decoding

`C4GroupFile.decode` (lines 43-47): try UTF-8; on `UnicodeDecodeError` fall
back to the legacy single-byte `"ansi"` codec. A failure of the fallback
propagates as the decoder's own `UnicodeDecodeError` — nothing converts it
to a `C4GroupError`. The legacy codec is platform-supplied and is taken as a
parameter; UTF-8 decoding is modelled in full (strict mode: overlong forms,
surrogates and values above `0x10FFFF` are rejected, as CPython does). -/

inductive DecodeErr where
  | unicodeDecodeError
  | formatError
  deriving DecidableEq, Repr

/-- Is `b` a UTF-8 continuation byte (`0x80..0xBF`)? -/
def isCont (b : Nat) : Bool := 0x80 ≤ b && b < 0xC0

/-- Strict UTF-8 decoding of a byte list into code points. -/
def utf8Decode : List Nat → Option (List Nat)
  | [] => some []
  | b :: rest =>
    if b < 0x80 then (utf8Decode rest).map (b :: ·)
    else if b < 0xC2 then none
    else if b < 0xE0 then
      match rest with
      | b2 :: rest2 =>
        if isCont b2 then
          (utf8Decode rest2).map (((b - 0xC0) * 0x40 + (b2 - 0x80)) :: ·)
        else none
      | _ => none
    else if b < 0xF0 then
      match rest with
      | b2 :: b3 :: rest3 =>
        if isCont b2 && isCont b3
            && !(b == 0xE0 && b2 < 0xA0) && !(b == 0xED && 0xA0 ≤ b2) then
          (utf8Decode rest3).map
            (((b - 0xE0) * 0x1000 + (b2 - 0x80) * 0x40 + (b3 - 0x80)) :: ·)
        else none
      | _ => none
    else if b < 0xF5 then
      match rest with
      | b2 :: b3 :: b4 :: rest4 =>
        if isCont b2 && isCont b3 && isCont b4
            && !(b == 0xF0 && b2 < 0x90) && !(b == 0xF4 && 0x90 ≤ b2) then
          (utf8Decode rest4).map
            (((b - 0xF0) * 0x40000 + (b2 - 0x80) * 0x1000
                + (b3 - 0x80) * 0x40 + (b4 - 0x80)) :: ·)
        else none
      | _ => none
    else none

/-- `C4GroupFile.decode` (lines 43-47): UTF-8 first, then the legacy codec;
if both fail, the fallback's `UnicodeDecodeError` propagates uncaught. -/
def decode (ansi : List Nat → Option (List Nat)) (val : List Nat) :
    Except DecodeErr (List Nat) :=
  match utf8Decode val with
  | some s => .ok s
  | none =>
    match ansi val with
    | some s => .ok s
    | none => .error .unicodeDecodeError

/-- C9 counterexample: when both decodings fail (byte `0xFF` is invalid
UTF-8 and the legacy codec rejects it too), the error is the decoder's
`UnicodeDecodeError`, not a `FormatError`. -/
theorem decode_error_kind_counterexample :
    decode (fun _ => none) [0xFF] = .error .unicodeDecodeError
    ∧ DecodeErr.unicodeDecodeError ≠ DecodeErr.formatError := by
  refine ⟨rfl, by decide⟩

/-- C9 (amended): decoding attempts UTF-8 first, then the legacy single-byte
codec; if both fail the operation fails with the decoder's own
`UnicodeDecodeError` (not a `FormatError`). -/
theorem decode_error_kind (ansi : List Nat → Option (List Nat))
    (val : List Nat) (hu : utf8Decode val = none) (ha : ansi val = none) :
    decode ansi val = .error .unicodeDecodeError := by
  simp [decode, hu, ha]

/-- Witness for C9's amended theorem at a concrete input. -/
theorem decode_error_kind_witness :
    decode (fun _ => none) [0xC3] = .error .unicodeDecodeError :=
  decode_error_kind (fun _ => none) [0xC3] (by decide) rfl

/-! ## Tree codec

In-memory tree of archive members: `file` is a leaf `C4GroupFile` (its
`__content` materialized), `dir` a `C4GroupDirectory` with its header fields
and ordered child list. Class-attribute defaults (count 0, empty author,
version (0,0), `original` false) are returned by the accessors for leaves.
`time.localtime`/`time.mktime` are modelled as the identity on the stored
epoch seconds — the precision the format stores. -/

inductive C4Node where
  | file (filename : List Nat)
      (size mtime offset_to_file CRC_flag CRC is_executable : Nat)
      (content : List Nat)
  | dir (filename : List Nat)
      (size mtime offset_to_file CRC_flag CRC is_executable : Nat)
      (count : Nat) (author : List Nat) (vmaj vmin : Nat) (original : Bool)
      (children : List C4Node)

def C4Node.filename : C4Node → List Nat
  | .file fn _ _ _ _ _ _ _ => fn
  | .dir fn _ _ _ _ _ _ _ _ _ _ _ _ => fn

def C4Node.size : C4Node → Nat
  | .file _ s _ _ _ _ _ _ => s
  | .dir _ s _ _ _ _ _ _ _ _ _ _ _ => s

def C4Node.mtime : C4Node → Nat
  | .file _ _ t _ _ _ _ _ => t
  | .dir _ _ t _ _ _ _ _ _ _ _ _ _ => t

def C4Node.offset_to_file : C4Node → Nat
  | .file _ _ _ o _ _ _ _ => o
  | .dir _ _ _ o _ _ _ _ _ _ _ _ _ => o

def C4Node.CRC_flag : C4Node → Nat
  | .file _ _ _ _ cf _ _ _ => cf
  | .dir _ _ _ _ cf _ _ _ _ _ _ _ _ => cf

def C4Node.CRC : C4Node → Nat
  | .file _ _ _ _ _ c _ _ => c
  | .dir _ _ _ _ _ c _ _ _ _ _ _ _ => c

def C4Node.is_executable : C4Node → Nat
  | .file _ _ _ _ _ _ e _ => e
  | .dir _ _ _ _ _ _ e _ _ _ _ _ _ => e

/-- `type(f) == type(self)` in `saveEntryCore` (line 202): true iff the
entry is itself a `C4GroupDirectory`. -/
def C4Node.isDir : C4Node → Bool
  | .file _ _ _ _ _ _ _ _ => false
  | .dir _ _ _ _ _ _ _ _ _ _ _ _ _ => true

def C4Node.count : C4Node → Nat
  | .file _ _ _ _ _ _ _ _ => 0
  | .dir _ _ _ _ _ _ _ c _ _ _ _ _ => c

def C4Node.author : C4Node → List Nat
  | .file _ _ _ _ _ _ _ _ => []
  | .dir _ _ _ _ _ _ _ _ a _ _ _ _ => a

def C4Node.vmaj : C4Node → Nat
  | .file _ _ _ _ _ _ _ _ => 0
  | .dir _ _ _ _ _ _ _ _ _ v _ _ _ => v

def C4Node.vmin : C4Node → Nat
  | .file _ _ _ _ _ _ _ _ => 0
  | .dir _ _ _ _ _ _ _ _ _ _ v _ _ => v

def C4Node.original : C4Node → Bool
  | .file _ _ _ _ _ _ _ _ => false
  | .dir _ _ _ _ _ _ _ _ _ _ _ o _ => o

def C4Node.children : C4Node → List C4Node
  | .file _ _ _ _ _ _ _ _ => []
  | .dir _ _ _ _ _ _ _ _ _ _ _ _ cs => cs

def C4Node.content : C4Node → List Nat
  | .file _ _ _ _ _ _ _ c => c
  | .dir _ _ _ _ _ _ _ _ _ _ _ _ _ => []

/-- `int.from_bytes(bs, "little")`. -/
def leNat (bs : List Nat) : Nat := bs.foldr (fun b acc => b + 256 * acc) 0

/-- `struct` `<i`/`<I`: the 4 little-endian bytes of `n % 2^32`. -/
def le4 (n : Nat) : List Nat :=
  [n % 256, n / 256 % 256, n / 256 ^ 2 % 256, n / 256 ^ 3 % 256]

/-- `struct` `<Ns`: truncate or NUL-pad to exactly `n` bytes. -/
def padTo (bs : List Nat) (n : Nat) : List Nat :=
  bs.take n ++ List.replicate (n - (bs.take n).length) 0

/-- `struct.pack_into` at offset `off` (in range in every use below). -/
def setBytes (temp : List Nat) (off : Nat) (bs : List Nat) : List Nat :=
  temp.take off ++ bs ++ temp.drop (off + bs.length)

/-- Python slice `bs[a:b]`. -/
def sub (bs : List Nat) (a b : Nat) : List Nat := (bs.take b).drop a

/-- Seek to `pos` then read `n` bytes (as many as available). -/
def readBytes (data : List Nat) (pos n : Nat) : List Nat :=
  (data.drop pos).take n

/-- `.replace(b"\x00", b"")`. -/
def stripNul (bs : List Nat) : List Nat := bs.filter (fun b => b ≠ 0)

/-- `b"%d" % n` packed with `<c` (one byte exactly): the single ASCII digit
when `n < 10`, a `struct.error` otherwise. -/
def asciiDigit (n : Nat) : Option Nat :=
  if n < 10 then some (48 + n) else none

/-- Slice assignment `l[a:a+n] = repl` on a bytearray. -/
def spliceSlice (l : List Nat) (a n : Nat) (repl : List Nat) : List Nat :=
  l.take a ++ repl ++ l.drop (a + n)

/-- `b"RedWolf Design GrpFolder"` (24 bytes). -/
def redWolfMagic : List Nat :=
  [82, 101, 100, 87, 111, 108, 102, 32, 68, 101, 115, 105, 103, 110, 32,
   71, 114, 112, 70, 111, 108, 100, 101, 114]

/-- `C4GroupDirectory.saveEntryCore` (lines 197-209), byte for byte as the
source packs it: 316 zero bytes are appended, then every `pack_into` lands
at a fixed absolute offset `204 + x` regardless of which record is being
written; the CRC is packed at `204 + 265` (not 285), `offset_to_file` is
never packed, and the CRC flag and executable flag are packed as single
ASCII decimal digits. -/
def saveEntryCore (f : C4Node) (temp : List Nat) : Option (List Nat) := do
  let temp := temp ++ List.replicate 316 0
  let temp := setBytes temp (204 + 0) (padTo f.filename 257)
  let temp := setBytes temp (204 + 257) (List.replicate 3 0)
  let temp := setBytes temp (204 + 260) (le4 1)
  let temp := setBytes temp (204 + 264) (le4 (if f.isDir then 1 else 0))
  let temp := setBytes temp (204 + 268) (le4 f.size)
  let temp := setBytes temp (204 + 272) (List.replicate 4 0)
  let temp := setBytes temp (204 + 280) (le4 f.mtime)
  let c1 ← asciiDigit f.CRC_flag
  let temp := setBytes temp (204 + 284) [c1]
  let temp := setBytes temp (204 + 265) (le4 f.CRC)
  let c2 ← asciiDigit f.is_executable
  let temp := setBytes temp (204 + 289) [c2]
  let temp := setBytes temp (204 + 290) (List.replicate 26 0)
  return temp

/-- The 204-byte header as `C4GroupDirectory.save` packs it before
scrambling (lines 155-164). -/
def headerRaw (d : C4Node) : List Nat :=
  let temp := List.replicate 204 0
  let temp := setBytes temp 0 (padTo redWolfMagic 25)
  let temp := setBytes temp 25 (List.replicate 3 0)
  let temp := setBytes temp 28 (le4 d.vmaj ++ le4 d.vmin)
  let temp := setBytes temp 36 (le4 d.count)
  let temp := setBytes temp 40 (padTo d.author 32)
  let temp := setBytes temp 72 (List.replicate 32 0)
  let temp := setBytes temp 104 (le4 d.mtime)
  let temp := setBytes temp 108 (le4 (if d.original then 1234567 else 0))
  setBytes temp 112 (List.replicate 92 0)

/-- `C4GroupDirectory.save` (lines 154-174) with `saveContent`
(lines 211-217): scrambled header, then one `saveEntryCore` per child in
list order, then per child either raw content spliced in at its absolute
`content_pos` (`selfPos` is this directory's `content_pos`) or the recursive
`save` of a nested directory appended. `fuel` bounds the nesting depth; the
source's `del f.content` mutation has no bearing on the produced bytes and
is not modelled. -/
def save : Nat → Nat → C4Node → Option (List Nat)
  | 0, _, _ => none
  | fuel + 1, selfPos, d => do
    let temp0 ← (decryptHeader (headerRaw d)).toOption
    let temp1 ← d.children.foldlM (fun t c => saveEntryCore c t) temp0
    d.children.foldlM
      (fun t c =>
        if c.isDir then
          (save fuel (selfPos + 204 + 316 * d.count + c.offset_to_file) c).map
            (fun sb => t ++ sb)
        else
          some (spliceSlice (t ++ List.replicate c.size 0)
            (selfPos + 204 + 316 * d.count + c.offset_to_file)
            c.size c.content))
      temp1

/-- The fields `loadEntryCore` (lines 176-191) reads from one 316-byte
record: filename NUL-stripped from bytes 0-256 (`<257s` unpack requires the
full 257 bytes), is-directory from 264-267, size from 268-271, offset from
276-279, time from 280-283, and both the executable flag and the CRC flag
from the single byte 284, CRC from 285-288. -/
structure EntryFields where
  filename : List Nat
  is_dir : Nat
  size : Nat
  offset_to_file : Nat
  mtime : Nat
  is_executable : Nat
  CRC_flag : Nat
  CRC : Nat
  deriving DecidableEq, Repr

def parseEntryCore (entrycore : List Nat) : Option EntryFields :=
  if (sub entrycore 0 257).length = 257 then
    some { filename := stripNul (sub entrycore 0 257),
           is_dir := leNat (sub entrycore 264 268),
           size := leNat (sub entrycore 268 272),
           offset_to_file := leNat (sub entrycore 276 280),
           mtime := leNat (sub entrycore 280 284),
           is_executable := leNat (sub entrycore 284 285),
           CRC_flag := leNat (sub entrycore 284 285),
           CRC := leNat (sub entrycore 285 289) }
  else none

/-- `C4GroupDirectory.load` (lines 138-152) with `loadEntryCore`
(lines 176-195): decrypt the 204 bytes at the directory's `content_pos`
(`dirPos`), parse count/author/version/time/original, then one record per
entry at `dirPos + 204 + 316*i`, recursing into directories at their
computed `content_pos`; a directory's record-time is overwritten by its
header time. A leaf's content is materialized through the lazy getter's
read: `size` bytes at its `content_pos`. `ef` carries the record fields the
entry was constructed with (for the root: the class defaults and the
constructor filename). -/
def load : Nat → List Nat → Nat → EntryFields → Option C4Node
  | 0, _, _, _ => none
  | fuel + 1, data, dirPos, ef => do
    let header ← (decryptHeader (readBytes data dirPos 204)).toOption
    let count := leNat (sub header 36 40)
    let author := stripNul (sub header 40 72)
    let vmaj := leNat (sub header 28 32)
    let vmin := leNat (sub header 32 36)
    let mtime := leNat (sub header 104 108)
    let original := leNat (sub header 108 112) == 1234567
    let children ← (List.range count).mapM (fun i => do
      let ec ← parseEntryCore (readBytes data (dirPos + 204 + 316 * i) 316)
      if ec.is_dir ≠ 0 then
        load fuel data (dirPos + 204 + 316 * count + ec.offset_to_file) ec
      else
        some (C4Node.file ec.filename ec.size ec.mtime ec.offset_to_file
          ec.CRC_flag ec.CRC ec.is_executable
          (readBytes data (dirPos + 204 + 316 * count + ec.offset_to_file)
            ec.size)))
    return C4Node.dir ef.filename ef.size mtime ef.offset_to_file ef.CRC_flag
      ef.CRC ef.is_executable count author vmaj vmin original children

/-- Loading a whole archive body: the root directory sits at position 0 and
starts from the class-attribute defaults plus the constructor filename. -/
def loadRoot (fuel : Nat) (data : List Nat) (filename : List Nat) :
    Option C4Node :=
  load fuel data 0 ⟨filename, 1, 0, 0, 0, 0, 0, 0⟩

/-- Concrete child: file "A", size 1, time 1000, no CRC, content "h". -/
def exChild : C4Node := C4Node.file [65] 1 1000 0 0 0 0 [104]

/-- Concrete tree: root "G", author "T", version (0,0), one child. -/
def exTree : C4Node :=
  C4Node.dir [71] 0 1000 0 0 0 0 1 [84] 0 0 false [exChild]

/-- C1: `load(save(T))` does not reproduce `T`. For the concrete tree
`exTree` whose only child has size 1 and CRC flag 0, the loaded child has
size 0 (the CRC packed at byte 265 clobbers the low byte of the size field)
and CRC flag 48 (the flag is saved as the ASCII digit "0" but loaded as a
raw byte), so the loaded tree differs from `T` in fields the claim lists. -/
theorem save_load_roundtrip_bug :
    ((save 9 0 exTree).bind (fun bs => loadRoot 9 bs [71])).map
        (fun t => t.children.map C4Node.size) = some [0]
    ∧ exTree.children.map C4Node.size = [1]
    ∧ ((save 9 0 exTree).bind (fun bs => loadRoot 9 bs [71])).map
        (fun t => t.children.map C4Node.CRC_flag) = some [48]
    ∧ exTree.children.map C4Node.CRC_flag = [0]
    ∧ ((save 9 0 exTree).bind (fun bs => loadRoot 9 bs [71])) ≠ some exTree := by
  refine ⟨by decide, by decide, by decide, by decide, ?_⟩
  intro h
  have h2 : ((save 9 0 exTree).bind (fun bs => loadRoot 9 bs [71])).map
      (fun t => t.children.map C4Node.size) = some [0] := by decide
  rw [h] at h2
  exact absurd h2 (by decide)

/-- Child with every interesting field non-trivial: offset 7, CRC flag set,
CRC `0x11223344`, executable. -/
def exF2 : C4Node := C4Node.file [66] 5 3 7 1 0x11223344 1 [1, 2, 3, 4, 5]

/-- A second child, to exhibit the fixed-offset record clobbering. -/
def exG : C4Node := C4Node.file [67] 2 3 0 0 0 0 [9, 9]

/-- C2: the emitted record does not put the fields where load reads them.
For `exF2` the record leaves bytes 276-279 (offset-to-file) zero, leaves
bytes 285-288 (where load reads the CRC) zero while the CRC bytes land at
265-268 clobbering the is-directory and size fields, and stores the CRC
flag as the ASCII digit 49 at byte 284; saving a second child packs its
fields over the first record (byte 204 holds the second child's filename)
and leaves the freshly appended record region zero. -/
theorem saveEntryCore_layout_bug :
    ((saveEntryCore exF2 (List.replicate 204 0)).map
        (fun r => (sub r (204 + 276) (204 + 280),
          sub r (204 + 285) (204 + 289),
          sub r (204 + 265) (204 + 269),
          sub r (204 + 284) (204 + 285),
          sub r (204 + 268) (204 + 272)))
      = some ([0, 0, 0, 0], [0, 0, 0, 0], le4 exF2.CRC, [49], [17, 0, 0, 0]))
    ∧ le4 exF2.offset_to_file ≠ [0, 0, 0, 0]
    ∧ le4 exF2.CRC ≠ [0, 0, 0, 0]
    ∧ le4 exF2.size ≠ [17, 0, 0, 0]
    ∧ exF2.CRC_flag ≠ 49
    ∧ ((saveEntryCore exG (List.replicate 204 0)).bind
          (saveEntryCore exF2)).map
        (fun r => (r.length, sub r 204 205, sub r 520 521))
      = some (836, [66], [0])
    ∧ exF2.filename = [66]
    ∧ exG.filename = [67] := by decide
